import Mathlib

/-!
Verification of the scheduler-assistant backend core logic.

Shallow embedding of the conflict detector (backend/app/routers/events.py)
and the attendance calculator (backend/app/routers/sessions.py).

Modelling conventions:
* Python naive datetimes are modelled as integers counting seconds; the
  datetime .replace that strips a timezone is the identity in this naive
  model (all comparisons in the source are wall-clock comparisons after
  stripping any zone).
* Calendar dates (the .date of a datetime, and the YYYY-MM-DD strings stored
  in session_attendance.session_date) are modelled as integers counting days;
  taking .date of a datetime is flooring division by 86400.
* The optional daily_start_time and daily_end_time strings are modelled as
  already-parsed (hour, minute) pairs, per the failure-semantics precondition
  that the caller supplies well-formed HH:MM values.
* Python floats are idealised as exact rationals; rounding to one decimal is
  modelled with the rational rounding function round1 below.  (Python rounds
  exact ties of the underlying float to even; no property checked here
  depends on tie behaviour, since both sides of each statement use round1.)
-/

namespace Scheduler

inductive TimingMode where
  | specific
  | anytime
  | deadline
deriving DecidableEq

inductive SessionStatus where
  | pending
  | attended
  | missed
  | skipped
deriving DecidableEq

/-- The events table, restricted to the columns the core logic reads. -/
structure Event where
  id : Nat
  startDate : Int
  endDate : Int
  timingMode : TimingMode
  isCompleted : Bool
  dailyStartTime : Option (Nat × Nat)
  dailyEndTime : Option (Nat × Nat)
deriving DecidableEq

/-- A session_attendance row, restricted to the columns the core logic reads. -/
structure SessionAttendance where
  eventId : Nat
  sessionDate : Int
  status : SessionStatus
deriving DecidableEq

/-- The .date of a naive datetime: floor to whole days. -/
def toDate (t : Int) : Int := t.fdiv 86400

/-- The overlap filter of the check_conflicts query:
Event.start_date < end_date AND Event.end_date > start_date. -/
def overlapTest (s1 e1 s2 e2 : Int) : Bool :=
  decide (s1 < e2) && decide (e1 > s2)

/-- The full WHERE clause of the check_conflicts query (plus the optional
exclude_id filter): overlap, timing_mode != anytime, is_completed == False,
id != exclude_id. -/
def eligibleFilter (startD endD : Int) (excludeId : Option Nat) (e : Event) : Bool :=
  overlapTest e.startDate e.endDate startD endD
    && decide (e.timingMode ≠ TimingMode.anytime)
    && (e.isCompleted == false)
    && (match excludeId with
        | some i => decide (e.id ≠ i)
        | none => true)

/-- The near-duplicate test applied to each candidate in the loop of
check_conflicts: both absolute differences strictly below 3600 seconds. -/
def nearThreshold (startD endD : Int) (e : Event) : Bool :=
  decide (|e.startDate - startD| < 3600) && decide (|e.endDate - endD| < 3600)

/-- check_conflicts (events.py): filter the events by the query conditions,
then return the first candidate whose start and end are both within one hour
of the proposed interval, or none. -/
def check_conflicts (events : List Event) (startD endD : Int)
    (excludeId : Option Nat) : Option Event :=
  (events.filter (eligibleFilter startD endD excludeId)).find? (nearThreshold startD endD)

/-- The conflict predicate exactly as the specification words it: the event is
not anytime, not completed, not the excluded id, strictly overlaps the
candidate interval, and both endpoint differences are strictly below one hour. -/
def specConflictPred (startD endD : Int) (excludeId : Option Nat) (e : Event) : Bool :=
  decide (e.timingMode ≠ TimingMode.anytime)
    && (e.isCompleted == false)
    && (match excludeId with
        | some i => decide (e.id ≠ i)
        | none => true)
    && (decide (e.startDate < endD) && decide (e.endDate > startD))
    && (decide (|e.startDate - startD| < 3600) && decide (|e.endDate - endD| < 3600))

/-- The overlap formula with the exact index pattern the specification text
uses: start1 < end2 AND end2 > start1. -/
def specOverlapFormula (s1 e1 s2 e2 : Int) : Prop :=
  s1 < e2 ∧ e2 > s1

/-- The corrected strict overlap formula: start1 < end2 AND end1 > start2. -/
def strictOverlapFormula (s1 e1 s2 e2 : Int) : Prop :=
  s1 < e2 ∧ e1 > s2

/-- The caller-selectable conflict rule variants described by the
specification. -/
inductive ConflictRule where
  | strict
  | threshold
  | disabled
deriving DecidableEq

/-- Modelled from the spec: findConflict with a caller-selected rule variant.
Only the threshold variant (check_conflicts) and a disabled call site (the
commented-out conflict check in create_event and update_event) appear in the
routers; the strict variant follows the spec wording: any event of the
candidate pool passing the overlap test is a conflict, first match returned. -/
def findConflict (rule : ConflictRule) (events : List Event) (startD endD : Int)
    (excludeId : Option Nat) : Option Event :=
  match rule with
  | ConflictRule.strict => (events.filter (eligibleFilter startD endD excludeId)).head?
  | ConflictRule.threshold => check_conflicts events startD endD excludeId
  | ConflictRule.disabled => none

lemma eligible_and_near_eq_spec (startD endD : Int) (excludeId : Option Nat) (e : Event) :
    (eligibleFilter startD endD excludeId e && nearThreshold startD endD e) =
      specConflictPred startD endD excludeId e := by
  apply Bool.eq_iff_iff.mpr
  cases excludeId <;>
    · simp only [eligibleFilter, nearThreshold, specConflictPred, overlapTest,
        Bool.and_eq_true, decide_eq_true_eq, beq_iff_eq]
      constructor <;> (intro h; tauto)

/-- C1: check_conflicts returns a conflicting event iff some event in the list
satisfies all of: timingMode not anytime, not completed, id different from the
excluded id, strict overlap with the candidate, and both endpoint differences
strictly below 3600 seconds; it returns the first such event in list order,
and none otherwise. -/
theorem check_conflicts_eq_first_spec_conflict (events : List Event)
    (startD endD : Int) (excludeId : Option Nat) :
    check_conflicts events startD endD excludeId =
      events.find? (specConflictPred startD endD excludeId) := by
  unfold check_conflicts
  induction events with
  | nil => rfl
  | cons e rest ih =>
    rw [List.filter_cons, List.find?_cons]
    rcases h : specConflictPred startD endD excludeId e with _ | _
    · rcases hel : eligibleFilter startD endD excludeId e with _ | _
      · simpa using ih
      · have hn : nearThreshold startD endD e = false := by
          have := eligible_and_near_eq_spec startD endD excludeId e
          rw [hel, h] at this
          simpa using this
        simpa [List.find?_cons, hn] using ih
    · have hboth : (eligibleFilter startD endD excludeId e
          && nearThreshold startD endD e) = true := by
        rw [eligible_and_near_eq_spec, h]
      have hel : eligibleFilter startD endD excludeId e = true := by
        exact (Bool.and_eq_true _ _ |>.mp hboth).1
      have hn : nearThreshold startD endD e = true := by
        exact (Bool.and_eq_true _ _ |>.mp hboth).2
      simp [hel, hn, List.find?_cons]

/-- C2 counterexample: the spec formula start1 < end2 AND end2 > start1 holds
for the disjoint intervals [0,1000) and [2000,3000) (in either labelling of
which interval is 1 and which is 2), both endpoint differences are below one
hour, yet the query overlap test rejects the pair in both orientations and
check_conflicts reports no conflict. -/
theorem spec_overlap_formula_counterexample :
    specOverlapFormula 0 1000 2000 3000
    ∧ nearThreshold 2000 3000 ⟨1, 0, 1000, TimingMode.specific, false, none, none⟩ = true
    ∧ overlapTest 0 1000 2000 3000 = false
    ∧ overlapTest 2000 3000 0 1000 = false
    ∧ check_conflicts [⟨1, 0, 1000, TimingMode.specific, false, none, none⟩]
        2000 3000 none = none
    ∧ check_conflicts [⟨1, 2000, 3000, TimingMode.specific, false, none, none⟩]
        0 1000 none = none := by
  refine ⟨⟨by norm_num, by norm_num⟩, by decide, by decide, by decide, by decide, by decide⟩

/-- C2 amended: two intervals are considered overlapping (eligible to
conflict) exactly when start1 < end2 AND end1 > start2, and for every pair of
intervals that merely touch at an endpoint the conflict detector never reports
a conflict between them: any event check_conflicts returns has its end
strictly after the candidate start and its start strictly before the candidate
end. -/
theorem overlap_strict_and_touching_never_conflict :
    (∀ s1 e1 s2 e2 : Int, overlapTest s1 e1 s2 e2 = true ↔ strictOverlapFormula s1 e1 s2 e2)
    ∧ (∀ (events : List Event) (startD endD : Int) (excludeId : Option Nat) (ev : Event),
        check_conflicts events startD endD excludeId = some ev →
        ev.endDate ≠ startD ∧ ev.startDate ≠ endD) := by
  constructor
  · intro s1 e1 s2 e2
    simp [overlapTest, strictOverlapFormula]
  · intro events startD endD excludeId ev h
    unfold check_conflicts at h
    have hmem := List.mem_of_find?_eq_some h
    have hel := (List.mem_filter.mp hmem).2
    simp only [eligibleFilter, overlapTest, Bool.and_eq_true, decide_eq_true_eq] at hel
    obtain ⟨⟨⟨⟨h1, h2⟩, -⟩, -⟩, -⟩ := hel
    exact ⟨by omega, by omega⟩

/-- Witness for the amended C2 theorem at concrete inputs. -/
theorem overlap_strict_and_touching_witness :
    strictOverlapFormula 0 7200 0 7200
    ∧ ((⟨1, 0, 7200, TimingMode.specific, false, none, none⟩ : Event).endDate ≠ 0
       ∧ (⟨1, 0, 7200, TimingMode.specific, false, none, none⟩ : Event).startDate ≠ 7200) :=
  ⟨(overlap_strict_and_touching_never_conflict.1 0 7200 0 7200).mp (by decide),
   overlap_strict_and_touching_never_conflict.2
     [⟨1, 0, 7200, TimingMode.specific, false, none, none⟩] 0 7200 none
     ⟨1, 0, 7200, TimingMode.specific, false, none, none⟩ (by decide)⟩

/-- C3: the conflict rule is a caller-selected configuration with exactly the
three variants strict, threshold and disabled; whenever an eligible event of
the pool passes the strict overlap test, findConflict under strict mode
returns a conflict, and under disabled mode it never returns one. -/
theorem findConflict_rule_variants :
    (∀ r : ConflictRule,
        r = ConflictRule.strict ∨ r = ConflictRule.threshold ∨ r = ConflictRule.disabled)
    ∧ (∀ (events : List Event) (startD endD : Int) (excludeId : Option Nat),
        findConflict ConflictRule.disabled events startD endD excludeId = none)
    ∧ (∀ (events : List Event) (startD endD : Int) (excludeId : Option Nat) (ev : Event),
        ev ∈ events →
        strictOverlapFormula ev.startDate ev.endDate startD endD →
        ev.timingMode ≠ TimingMode.anytime →
        ev.isCompleted = false →
        (∀ i, excludeId = some i → ev.id ≠ i) →
        (findConflict ConflictRule.strict events startD endD excludeId).isSome = true) := by
  refine ⟨fun r => by cases r <;> simp, fun events startD endD excludeId => rfl, ?_⟩
  intro events startD endD excludeId ev hmem hov htm hcomp hex
  have hel : eligibleFilter startD endD excludeId ev = true := by
    simp only [eligibleFilter, overlapTest, Bool.and_eq_true, decide_eq_true_eq, beq_iff_eq]
    refine ⟨⟨⟨⟨hov.1, hov.2⟩, htm⟩, hcomp⟩, ?_⟩
    cases excludeId with
    | none => simp
    | some i => simpa using hex i rfl
  have hmemf : ev ∈ events.filter (eligibleFilter startD endD excludeId) :=
    List.mem_filter.mpr ⟨hmem, hel⟩
  rcases hf : events.filter (eligibleFilter startD endD excludeId) with _ | ⟨a, tl⟩
  · rw [hf] at hmemf
    simp at hmemf
  · simp [findConflict, hf]

/-- Witness for C3 at concrete inputs: a specific, uncompleted event that
strictly overlaps the candidate makes strict mode report a conflict. -/
theorem findConflict_rule_variants_witness :
    (findConflict ConflictRule.strict
      [⟨1, 0, 7200, TimingMode.specific, false, none, none⟩] 0 7200 none).isSome = true :=
  findConflict_rule_variants.2.2
    [⟨1, 0, 7200, TimingMode.specific, false, none, none⟩] 0 7200 none
    ⟨1, 0, 7200, TimingMode.specific, false, none, none⟩
    (by simp) (by simp [strictOverlapFormula]) (by decide) rfl
    (fun i h => by simp at h)

/-- calculate_total_sessions (sessions.py): 0 without a daily window,
otherwise the inclusive day count (end.date - start.date).days + 1.  (The
hasattr/isinstance normalisation in the source is the identity here, since
start_date and end_date are always datetimes.) -/
def calculate_total_sessions (event : Event) : Int :=
  if event.dailyStartTime = none ∨ event.dailyEndTime = none then 0
  else toDate event.endDate - toDate event.startDate + 1

/-- The descending sort of calculate_streak: Python sorted with
key session_date and reverse True, i.e. a stable sort placing later dates
first. -/
def sortByDateDesc (sessions : List SessionAttendance) : List SessionAttendance :=
  sessions.mergeSort (fun a b => decide (b.sessionDate ≤ a.sessionDate))

/-- The counting loop of calculate_streak: add one per leading attended
record, stop at the first other record. -/
def streakLoop : List SessionAttendance → Nat
  | [] => 0
  | s :: rest =>
    if s.status = SessionStatus.attended then streakLoop rest + 1 else 0

/-- calculate_streak (sessions.py): 0 for no records, otherwise the loop over
the records sorted by session_date descending. -/
def calculate_streak (sessions : List SessionAttendance) : Nat :=
  if sessions.isEmpty then 0
  else streakLoop (sortByDateDesc sessions)

/-- C8: totalSessions is 0 exactly when the daily window is absent and the
inclusive day count otherwise; an event spanning one day gives 1 and one
spanning 2024-01-01 (day 19723) to 2024-01-05 (day 19727) gives 5. -/
theorem calculate_total_sessions_spec :
    (∀ event : Event, calculate_total_sessions event =
      match event.dailyStartTime, event.dailyEndTime with
      | some _, some _ => toDate event.endDate - toDate event.startDate + 1
      | _, _ => 0)
    ∧ calculate_total_sessions
        ⟨1, 19723 * 86400 + 9 * 3600, 19727 * 86400 + 17 * 3600,
         TimingMode.specific, false, some (9, 0), some (17, 0)⟩ = 5
    ∧ calculate_total_sessions
        ⟨2, 19723 * 86400 + 9 * 3600, 19723 * 86400 + 17 * 3600,
         TimingMode.specific, false, some (9, 0), some (17, 0)⟩ = 1
    ∧ calculate_total_sessions
        ⟨3, 19723 * 86400, 19727 * 86400, TimingMode.specific, false, none, none⟩ = 0 := by
  refine ⟨?_, by decide, by decide, by decide⟩
  intro event
  unfold calculate_total_sessions
  rcases event.dailyStartTime with _ | st <;> rcases event.dailyEndTime with _ | et <;> simp

lemma streakLoop_eq_takeWhile (l : List SessionAttendance) :
    streakLoop l =
      (l.takeWhile (fun s => decide (s.status = SessionStatus.attended))).length := by
  induction l with
  | nil => rfl
  | cons s rest ih =>
    by_cases h : s.status = SessionStatus.attended <;>
      simp [streakLoop, List.takeWhile_cons, h, ih]

/-- C5: currentStreak is the length of the block of consecutive leading
attended records of the list sorted by session date descending; the first
record of any other status stops the count, and no records give 0. -/
theorem calculate_streak_spec (records : List SessionAttendance) :
    calculate_streak records =
      ((sortByDateDesc records).takeWhile
        (fun s => decide (s.status = SessionStatus.attended))).length := by
  unfold calculate_streak
  rcases hr : records with _ | ⟨s, rest⟩
  · simp [sortByDateDesc]
  · rw [List.isEmpty_cons]
    simp only [Bool.false_eq_true, if_false]
    exact streakLoop_eq_takeWhile _

/-- Python round(x, 1) on the idealised rational value: round to the nearest
tenth. -/
def round1 (q : ℚ) : ℚ := (round (q * 10) : ℚ) / 10

/-- The SessionStats response model (schemas.py), restricted to the computed
fields. -/
structure SessionStats where
  total_sessions : Int
  attended : Nat
  missed : Nat
  skipped : Nat
  pending : Int
  attendance_rate : ℚ
  current_streak : Nat
deriving DecidableEq

/-- get_session_stats (sessions.py), the pure computation after the event and
its records have been fetched: per-status counts, pending clamped at zero,
rate over attended plus missed only, rounded to one decimal, and the streak. -/
def get_session_stats (event : Event) (sessions : List SessionAttendance) : SessionStats :=
  let total := calculate_total_sessions event
  let attended := sessions.countP (fun s => decide (s.status = SessionStatus.attended))
  let missed := sessions.countP (fun s => decide (s.status = SessionStatus.missed))
  let skipped := sessions.countP (fun s => decide (s.status = SessionStatus.skipped))
  let pending : Int := total - attended - missed - skipped
  let marked := attended + missed
  let rate : ℚ := if 0 < marked then (attended : ℚ) / (marked : ℚ) * 100 else 0
  { total_sessions := total
    attended := attended
    missed := missed
    skipped := skipped
    pending := max 0 pending
    attendance_rate := round1 rate
    current_streak := calculate_streak sessions }

/-- Records whose status makes them count toward the rate denominator. -/
def markedPred (s : SessionAttendance) : Bool :=
  decide (s.status = SessionStatus.attended) || decide (s.status = SessionStatus.missed)

lemma countP_attended_filter_marked (sessions : List SessionAttendance) :
    (sessions.filter markedPred).countP
        (fun s => decide (s.status = SessionStatus.attended)) =
      sessions.countP (fun s => decide (s.status = SessionStatus.attended)) := by
  rw [List.countP_filter]
  apply List.countP_congr
  intro s _
  cases h : s.status <;> simp [markedPred, h]

lemma countP_missed_filter_marked (sessions : List SessionAttendance) :
    (sessions.filter markedPred).countP
        (fun s => decide (s.status = SessionStatus.missed)) =
      sessions.countP (fun s => decide (s.status = SessionStatus.missed)) := by
  rw [List.countP_filter]
  apply List.countP_congr
  intro s _
  cases h : s.status <;> simp [markedPred, h]

/-- C6: the attendance rate is attended divided by attended plus missed, times
100, rounded to one decimal, and 0 when that denominator is 0; skipped and
pending records never affect it: the rate computed from all records equals the
rate computed from the attended and missed records alone. -/
theorem get_session_stats_rate_spec (event : Event) (sessions : List SessionAttendance) :
    ((get_session_stats event sessions).attendance_rate =
      (let a := sessions.countP (fun s => decide (s.status = SessionStatus.attended))
       let m := sessions.countP (fun s => decide (s.status = SessionStatus.missed))
       if a + m = 0 then 0 else round1 ((a : ℚ) / ((a : ℚ) + (m : ℚ)) * 100)))
    ∧ (get_session_stats event sessions).attendance_rate =
      (get_session_stats event (sessions.filter markedPred)).attendance_rate := by
  constructor
  · simp only [get_session_stats]
    rcases Nat.eq_zero_or_pos
        (sessions.countP (fun s => decide (s.status = SessionStatus.attended))
          + sessions.countP (fun s => decide (s.status = SessionStatus.missed))) with h | h
    · simp [h, round1]
    · have h0 : sessions.countP (fun s => decide (s.status = SessionStatus.attended))
          + sessions.countP (fun s => decide (s.status = SessionStatus.missed)) ≠ 0 :=
        Nat.pos_iff_ne_zero.mp h
      simp only [h, if_pos, h0, if_neg, if_false]
      push_cast
      simp [h0]
  · simp only [get_session_stats, countP_attended_filter_marked, countP_missed_filter_marked]

/-- C7: the pending count equals the total minus the attended, missed and
skipped counts, clamped below at zero, hence is never negative — for every
record set, including records outside the date range of the event. -/
theorem get_session_stats_pending_spec (event : Event) (sessions : List SessionAttendance) :
    (get_session_stats event sessions).pending =
      max 0 (calculate_total_sessions event
        - sessions.countP (fun s => decide (s.status = SessionStatus.attended))
        - sessions.countP (fun s => decide (s.status = SessionStatus.missed))
        - sessions.countP (fun s => decide (s.status = SessionStatus.skipped)))
    ∧ 0 ≤ (get_session_stats event sessions).pending := by
  refine ⟨rfl, ?_⟩
  simp only [get_session_stats]
  exact le_max_left 0 _

/-- C9: if some in-range date has no record and the computed pending count is
positive, adding a skipped record for that date decreases pending by exactly 1
and leaves the attendance rate unchanged. -/
theorem get_session_stats_skipped_roundtrip (event : Event)
    (sessions : List SessionAttendance) (d : Int) (r : SessionAttendance)
    (hdlo : toDate event.startDate ≤ d) (hdhi : d ≤ toDate event.endDate)
    (hnone : ∀ s ∈ sessions, s.sessionDate ≠ d)
    (hpos : 0 < (get_session_stats event sessions).pending)
    (hrd : r.sessionDate = d) (hrs : r.status = SessionStatus.skipped) :
    (get_session_stats event (r :: sessions)).pending
        = (get_session_stats event sessions).pending - 1
    ∧ (get_session_stats event (r :: sessions)).attendance_rate
        = (get_session_stats event sessions).attendance_rate := by
  have ha : (r :: sessions).countP (fun s => decide (s.status = SessionStatus.attended))
      = sessions.countP (fun s => decide (s.status = SessionStatus.attended)) :=
    List.countP_cons_of_neg _ sessions (by simp [hrs])
  have hm : (r :: sessions).countP (fun s => decide (s.status = SessionStatus.missed))
      = sessions.countP (fun s => decide (s.status = SessionStatus.missed)) :=
    List.countP_cons_of_neg _ sessions (by simp [hrs])
  have hs : (r :: sessions).countP (fun s => decide (s.status = SessionStatus.skipped))
      = sessions.countP (fun s => decide (s.status = SessionStatus.skipped)) + 1 :=
    List.countP_cons_of_pos _ sessions (by simp [hrs])
  simp only [get_session_stats] at hpos ⊢
  rw [ha, hm, hs]
  refine ⟨?_, rfl⟩
  push_cast at hpos ⊢
  omega

/-- Witness for C9: a three-day event with a daily window and no records has
pending 3; marking its first day skipped yields pending 2 and the same rate. -/
theorem get_session_stats_skipped_roundtrip_witness :
    ((0 : Int) < (get_session_stats
        ⟨1, 19723 * 86400, 19725 * 86400, TimingMode.specific, false,
         some (9, 0), some (17, 0)⟩ []).pending)
    ∧ ((get_session_stats
          ⟨1, 19723 * 86400, 19725 * 86400, TimingMode.specific, false,
           some (9, 0), some (17, 0)⟩ [⟨1, 19723, SessionStatus.skipped⟩]).pending
        = (get_session_stats
          ⟨1, 19723 * 86400, 19725 * 86400, TimingMode.specific, false,
           some (9, 0), some (17, 0)⟩ []).pending - 1
      ∧ (get_session_stats
          ⟨1, 19723 * 86400, 19725 * 86400, TimingMode.specific, false,
           some (9, 0), some (17, 0)⟩ [⟨1, 19723, SessionStatus.skipped⟩]).attendance_rate
        = (get_session_stats
          ⟨1, 19723 * 86400, 19725 * 86400, TimingMode.specific, false,
           some (9, 0), some (17, 0)⟩ []).attendance_rate) :=
  ⟨by decide,
   get_session_stats_skipped_roundtrip
     ⟨1, 19723 * 86400, 19725 * 86400, TimingMode.specific, false, some (9, 0), some (17, 0)⟩
     [] 19723 ⟨1, 19723, SessionStatus.skipped⟩
     (by decide) (by decide) (by simp) (by decide) rfl rfl⟩

/-- replace with hour, minute, second and microsecond all zero: the start of
the current day. -/
def startOfDay (t : Int) : Int := 86400 * t.fdiv 86400

/-- An EventCreate request body (schemas.py), restricted to the fields the
validation logic reads. -/
structure EventCreate where
  startDate : Int
  endDate : Int
  timingMode : TimingMode
  dailyStartTime : Option (Nat × Nat)
  dailyEndTime : Option (Nat × Nat)
deriving DecidableEq

/-- The outcome of a create_event call: the event store afterwards and either
the created event or the HTTP 400 detail string. -/
structure CreateResult where
  db : List Event
  response : Except String Event

/-- create_event (events.py): reject end before or at start, then reject a
start date earlier than today at midnight (timezone stripping is the identity
in the naive model), otherwise persist and return the new event.  The
conflict-detection call site is removed in the source, so no conflict check
happens here.  The generated uuid is supplied as newId. -/
def create_event (db : List Event) (data : EventCreate) (now : Int)
    (newId : Nat) : CreateResult :=
  if data.endDate ≤ data.startDate then
    ⟨db, Except.error "End time must be after start time"⟩
  else if data.startDate < startOfDay now then
    ⟨db, Except.error "Cannot schedule events in the past"⟩
  else
    let ev : Event := ⟨newId, data.startDate, data.endDate, data.timingMode,
      false, data.dailyStartTime, data.dailyEndTime⟩
    ⟨db ++ [ev], Except.ok ev⟩

/-- C10: for a request with a valid interval, a start date before today at
midnight is rejected with the past-events 400 detail and the store is
unchanged, while a start date at or after today at midnight (in particular,
later the same day) is accepted and appends exactly the new event. -/
theorem create_event_past_validation (db : List Event) (data : EventCreate)
    (now : Int) (newId : Nat) (hvalid : data.startDate < data.endDate) :
    (data.startDate < startOfDay now →
      create_event db data now newId
        = ⟨db, Except.error "Cannot schedule events in the past"⟩)
    ∧ (startOfDay now ≤ data.startDate →
      create_event db data now newId
        = ⟨db ++ [⟨newId, data.startDate, data.endDate, data.timingMode,
            false, data.dailyStartTime, data.dailyEndTime⟩],
           Except.ok ⟨newId, data.startDate, data.endDate, data.timingMode,
            false, data.dailyStartTime, data.dailyEndTime⟩⟩) := by
  constructor
  · intro hpast
    rw [create_event, if_neg (by omega), if_pos hpast]
  · intro hok
    rw [create_event, if_neg (by omega), if_neg (by omega)]

/-- Witness for C10: with now two days after the epoch, a request starting at
the epoch is rejected as past, and with now at the epoch it is accepted. -/
theorem create_event_past_validation_witness :
    ((0 : Int) < 3600
      ∧ create_event [] ⟨0, 3600, TimingMode.specific, none, none⟩ 172800 7
        = ⟨[], Except.error "Cannot schedule events in the past"⟩)
    ∧ create_event [] ⟨0, 3600, TimingMode.specific, none, none⟩ 0 7
        = ⟨[⟨7, 0, 3600, TimingMode.specific, false, none, none⟩],
           Except.ok ⟨7, 0, 3600, TimingMode.specific, false, none, none⟩⟩ :=
  ⟨⟨by decide,
    (create_event_past_validation [] ⟨0, 3600, TimingMode.specific, none, none⟩ 172800 7
      (by decide)).1 (by decide)⟩,
   (create_event_past_validation [] ⟨0, 3600, TimingMode.specific, none, none⟩ 0 7
      (by decide)).2 (by decide)⟩

/-- The today_session_ended test of get_pending_sessions:
now.hour > end_hour or (now.hour == end_hour and now.minute >= end_min). -/
def sessionEnded (endTime : Nat × Nat) (nowHour nowMinute : Nat) : Bool :=
  decide (endTime.1 < nowHour) || (decide (nowHour = endTime.1) && decide (endTime.2 ≤ nowMinute))

/-- The while loop of get_pending_sessions: walk day by day while
current <= end and current <= today, collecting unmarked dates, with today
itself collected only once its daily window has ended.  (The trailing
hasattr guard of the source is a no-op for dates.) -/
def pendingLoop (marked : List Int) (endD today : Int) (ended : Bool)
    (current : Int) : List Int :=
  if h : current ≤ endD ∧ current ≤ today then
    if marked.contains current then
      pendingLoop marked endD today ended (current + 1)
    else if current = today then
      if ended then current :: pendingLoop marked endD today ended (current + 1)
      else pendingLoop marked endD today ended (current + 1)
    else current :: pendingLoop marked endD today ended (current + 1)
  else []
termination_by (min endD today + 1 - current).toNat
decreasing_by all_goals omega

/-- get_pending_sessions (sessions.py), the pure computation after the event
and its attendance records have been fetched: empty without a daily window,
otherwise the loop starting from the start date of the event over the set of
already-marked dates. -/
def get_pending_sessions (event : Event) (records : List SessionAttendance)
    (today : Int) (nowHour nowMinute : Nat) : List Int :=
  match event.dailyStartTime, event.dailyEndTime with
  | some _, some endTime =>
    pendingLoop (records.map (fun s => s.sessionDate)) (toDate event.endDate) today
      (sessionEnded endTime nowHour nowMinute) (toDate event.startDate)
  | _, _ => []

/-- The ascending enumeration of the calendar dates from a to b inclusive. -/
def dateRange (a b : Int) : List Int :=
  (List.range (b + 1 - a).toNat).map (fun (i : Nat) => a + (i : Int))

/-- The pending condition of the claim for a date d: no record exists for d,
and d is before today, or is today with the daily window already ended. -/
def pendingPred (marked : List Int) (today : Int) (ended : Bool) (d : Int) : Bool :=
  !(marked.contains d) && (decide (d < today) || (decide (d = today) && ended))

lemma dateRange_nil {a b : Int} (h : b < a) : dateRange a b = [] := by
  unfold dateRange
  have h0 : (b + 1 - a).toNat = 0 := by omega
  simp [h0]

lemma dateRange_cons {a b : Int} (h : a ≤ b) : dateRange a b = a :: dateRange (a + 1) b := by
  unfold dateRange
  have h1 : (b + 1 - a).toNat = (b + 1 - (a + 1)).toNat + 1 := by omega
  rw [h1, List.range_succ_eq_map]
  simp only [List.map_cons, List.map_map, Nat.cast_zero, add_zero, List.cons.injEq]
  refine ⟨trivial, List.map_congr_left ?_⟩
  intro i _
  simp only [Function.comp_apply, Nat.succ_eq_add_one]
  push_cast
  ring

theorem pendingLoop_eq_filter_range (marked : List Int) (endD today : Int)
    (ended : Bool) (current : Int) :
    pendingLoop marked endD today ended current =
      (dateRange current (min endD today)).filter (pendingPred marked today ended) := by
  rw [pendingLoop]
  by_cases h : current ≤ endD ∧ current ≤ today
  · rw [dif_pos h, dateRange_cons (by omega : current ≤ min endD today), List.filter_cons,
      pendingLoop_eq_filter_range marked endD today ended (current + 1)]
    by_cases hm : current ∈ marked
    · have hp : pendingPred marked today ended current = false := by
        simp [pendingPred, hm]
      simp [hm, hp]
    · by_cases ht : current = today
      · subst ht
        by_cases he : ended = true
        · subst he
          have hp : pendingPred marked current true current = true := by
            simp [pendingPred, hm]
          simp [hm, hp]
        · have he' : ended = false := by
            cases ended
            · rfl
            · exact absurd rfl he
          subst he'
          have hp : pendingPred marked current false current = false := by
            simp [pendingPred, hm]
          simp [hm, hp]
      · have hlt : current < today := by omega
        have hp : pendingPred marked today ended current = true := by
          simp [pendingPred, hm, hlt]
        simp [hm, ht, hp]
  · rw [dif_neg h, dateRange_nil (by omega), List.filter_nil]
termination_by (min endD today + 1 - current).toNat
decreasing_by omega

/-- C4: with a daily window, the pending session dates are exactly the dates
from start.date to the smaller of end.date and today, inclusive, in ascending
order, keeping a date iff it has no attendance record and is either before
today or is today with the wall clock at or past the daily end time; dates
after today never appear, and without a daily window the result is empty. -/
theorem get_pending_sessions_spec (event : Event) (records : List SessionAttendance)
    (today : Int) (nowHour nowMinute : Nat) :
    get_pending_sessions event records today nowHour nowMinute =
      match event.dailyStartTime, event.dailyEndTime with
      | some _, some endTime =>
        (dateRange (toDate event.startDate) (min (toDate event.endDate) today)).filter
          (pendingPred (records.map (fun s => s.sessionDate)) today
            (sessionEnded endTime nowHour nowMinute))
      | _, _ => [] := by
  unfold get_pending_sessions
  rcases h1 : event.dailyStartTime with _ | st <;>
    rcases h2 : event.dailyEndTime with _ | et <;>
      simp [pendingLoop_eq_filter_range]

end Scheduler
